import Mathlib

/-!
Verification of the RiverProjectionMapping STIV (Space-Time Image
Velocimetry) pipeline.

The development shallowly embeds the two Python scripts

  * `Assets/StreamingAssets/PythonScripts/baseline_stiv.py`
    (batch variant: line sampling, STI generation, global-average
    structure-tensor analysis), and
  * `Assets/StreamingAssets/PythonScripts/river_speed_camera.py`
    (streaming variant: YOLO-based scale calibration, per-pixel
    structure-tensor analysis, the acquisition loop and its
    line-oriented output protocol)

into Lean.  Pixel intensities, gradients and velocities are modelled as
rationals (Python float arithmetic on the values occurring here is exact
except where an explicit note says otherwise); the places where IEEE
division by zero can produce infinities or NaN are modelled by the
explicit extended-value type `Fl`.  The discretized Gaussian kernels
produced internally by `scipy.ndimage.gaussian_filter` have
transcendental weights, so the smoothing stage is parametrized by an
abstract separable kernel (`Kern`); `Kern.valid` records the properties
scipy guarantees of its kernels (finite support with the scipy truncation
radius, nonnegativity, symmetry, unit mass).
-/

namespace River

/-- Sum of `f 0, …, f (n-1)`, by a structural fold (kernel-reducible). -/
def natSum (n : ℕ) (f : ℕ → ℚ) : ℚ :=
  (List.range n).foldl (fun acc k => acc + f k) 0

/-- Sum of `f a, f (a+1), …, f b` over the integer interval `[a, b]`. -/
def isum (a b : ℤ) (f : ℤ → ℚ) : ℚ :=
  natSum (b + 1 - a).toNat (fun k => f (a + k))

/-- A 2D image: `t` rows (time), `x` columns (space), rational samples.
`val` is total; only indices below the bounds are meaningful. -/
structure Img where
  t : ℕ
  x : ℕ
  val : ℕ → ℕ → ℚ

/-- OpenCV `BORDER_REFLECT_101` index folding (`gfedcb|abcdefgh|gfedcba`):
the default border of `cv2.Sobel`. -/
def refl101 (n : ℕ) (i : ℤ) : ℕ :=
  if n ≤ 1 then 0 else
    let m := (i % (2 * (n : ℤ) - 2)).toNat
    if m < n then m else 2 * n - 2 - m

/-- scipy `mode='reflect'` index folding (`dcba|abcd|dcba`): the default
border of `scipy.ndimage.gaussian_filter`. -/
def reflSym (n : ℕ) (i : ℤ) : ℕ :=
  if n = 0 then 0 else
    let m := (i % (2 * (n : ℤ))).toNat
    if m < n then m else 2 * n - 1 - m

/-- Pixel access with `BORDER_REFLECT_101` extension in both axes. -/
def Img.at101 (img : Img) (i j : ℤ) : ℚ :=
  img.val (refl101 img.t i) (refl101 img.x j)

/-- Pixel access with scipy `reflect` extension in both axes. -/
def Img.atSym (img : Img) (i j : ℤ) : ℚ :=
  img.val (reflSym img.t i) (reflSym img.x j)

/-- A separable smoothing kernel: weights `w` with support radius `r`.
Models the discrete Gaussian that `scipy.ndimage.gaussian_filter`
builds internally for a given sigma (scipy truncates at radius
`int(4*sigma + 0.5)`, e.g. radius 4 for `sigma=1.0`, 8 for `sigma=2.0`). -/
structure Kern where
  w : ℤ → ℚ
  r : ℕ

/-- The properties scipy's discretized Gaussian kernels satisfy:
nonnegative, symmetric, unit mass, supported on `[-r, r]`. -/
def Kern.valid (k : Kern) : Prop :=
  (∀ i, 0 ≤ k.w i) ∧ (∀ i, k.w (-i) = k.w i) ∧
    isum (-(k.r : ℤ)) (k.r : ℤ) k.w = 1 ∧
    ∀ i : ℤ, (k.r : ℤ) < |i| → k.w i = 0

/-- `scipy.ndimage.gaussian_filter(img, sigma)`: separable correlation
with the discretized Gaussian along each axis, `reflect` border.
Sequential per-axis filtering with per-axis reflection equals this joint
double sum because the reflections act on independent axes. -/
def gaussian_filter (k : Kern) (img : Img) : Img :=
  ⟨img.t, img.x, fun ti xi =>
    isum (-(k.r : ℤ)) (k.r : ℤ) (fun di =>
      isum (-(k.r : ℤ)) (k.r : ℤ) (fun dj =>
        k.w di * k.w dj * img.atSym ((ti : ℤ) + di) ((xi : ℤ) + dj)))⟩

/-- Sobel 3x3 smoothing weights `[1, 2, 1]` at offsets `-1, 0, 1`. -/
def sweight : ℤ → ℚ := fun i =>
  if i = -1 then 1 else if i = 0 then 2 else if i = 1 then 1 else 0

/-- Sobel 3x3 derivative weights `[-1, 0, 1]` at offsets `-1, 0, 1`. -/
def dweight : ℤ → ℚ := fun i =>
  if i = -1 then -1 else if i = 1 then 1 else 0

/-- `cv2.Sobel(img, CV_64F, 1, 0, ksize=3)`: spatial (x) derivative,
kernel `[[-1,0,1],[-2,0,2],[-1,0,1]]`, `BORDER_REFLECT_101`. -/
def sobelX (img : Img) : Img :=
  ⟨img.t, img.x, fun ti xi =>
    isum (-1) 1 (fun di =>
      isum (-1) 1 (fun dj =>
        sweight di * dweight dj * img.at101 ((ti : ℤ) + di) ((xi : ℤ) + dj)))⟩

/-- `cv2.Sobel(img, CV_64F, 0, 1, ksize=3)`: temporal (t) derivative. -/
def sobelT (img : Img) : Img :=
  ⟨img.t, img.x, fun ti xi =>
    isum (-1) 1 (fun di =>
      isum (-1) 1 (fun dj =>
        dweight di * sweight dj * img.at101 ((ti : ℤ) + di) ((xi : ℤ) + dj)))⟩

/-- Pointwise product of two images (`Ix**2`, `Ix*It`, …). -/
def Img.mul (a b : Img) : Img :=
  ⟨a.t, a.x, fun i j => a.val i j * b.val i j⟩

/-- `np.mean` of a 2D array: total sum over the `t × x` rectangle,
divided by the element count. -/
def Img.mean (img : Img) : ℚ :=
  natSum img.t (fun i => natSum img.x (fun j => img.val i j)) /
    ((img.t : ℚ) * (img.x : ℚ))

/-- The shared structure-tensor pipeline of both scripts
(`baseline_stiv.py` lines 193-203, `river_speed_camera.py` lines
159-165): pre-smooth the STI, take Sobel derivatives, form `Ixx = Ix²`
and `Ixt = Ix·It`, and smooth both with the tensor-scale Gaussian,
yielding `(Jxx, Jxt)`. -/
def tensorJ (kp kt : Kern) (sti : Img) : Img × Img :=
  let img_smooth := gaussian_filter kp sti
  let Ix := sobelX img_smooth
  let It := sobelT img_smooth
  let Ixx := Img.mul Ix Ix
  let Ixt := Img.mul Ix It
  (gaussian_filter kt Ixx, gaussian_filter kt Ixt)

/-! ## baseline_stiv.py: line sampling and global-average analysis -/

/-- A grayscale video frame: height `h`, width `w`, intensity `px row col`.
(`extract_line_pixels` accepts BGR frames and converts the sampled values
with the fixed OpenCV luma formula afterwards; since luma is linear and
is applied pointwise, the composite is bilinear sampling of the luma
image, which is what we model.) -/
structure GFrame where
  h : ℕ
  w : ℕ
  px : ℕ → ℕ → ℚ

/-- The `k`-th of `np.linspace(a, b, n)`'s points:
`a + k * (b - a) / (n - 1)`, with the single point `a` when `n = 1`. -/
def linPoint (a b : ℚ) (n k : ℕ) : ℚ :=
  if n ≤ 1 then a else a + k * (b - a) / ((n : ℚ) - 1)

/-- `np.linspace(a, b, n)`: `n` evenly spaced points from `a` to `b`
inclusive; `n = 1` yields `[a]`, `n = 0` yields `[]`. -/
def linspace (a b : ℚ) (n : ℕ) : List ℚ :=
  (List.range n).map (linPoint a b n)

/-- In-bounds pixel read, `0` outside the frame: the
`BORDER_CONSTANT` (zero) border that `cv2.remap` uses by default. -/
def pxOr0 (f : GFrame) (xi yi : ℤ) : ℚ :=
  if 0 ≤ xi ∧ xi < (f.w : ℤ) ∧ 0 ≤ yi ∧ yi < (f.h : ℤ) then
    f.px yi.toNat xi.toNat
  else 0

/-- Bilinear interpolation at real coordinate `(x, y)`:
`cv2.remap(..., interpolation=cv2.INTER_LINEAR)`. -/
def sampleAt (f : GFrame) (x y : ℚ) : ℚ :=
  let x0 : ℤ := ⌊x⌋
  let y0 : ℤ := ⌊y⌋
  let a : ℚ := x - x0
  let b : ℚ := y - y0
  (1 - a) * (1 - b) * pxOr0 f x0 y0 +
    a * (1 - b) * pxOr0 f (x0 + 1) y0 +
    (1 - a) * b * pxOr0 f x0 (y0 + 1) +
    a * b * pxOr0 f (x0 + 1) (y0 + 1)

/-- The sampling coordinates of `extract_line_pixels`: the pointwise zip
of `np.linspace(x0, x1, length)` and `np.linspace(y0, y1, length)`. -/
def sampleCoords (p q : ℤ × ℤ) (length : ℕ) : List (ℚ × ℚ) :=
  (linspace (p.1 : ℚ) (q.1 : ℚ) length).zip (linspace (p.2 : ℚ) (q.2 : ℚ) length)

/-- `extract_line_pixels(frame, start, end, length)` of
`baseline_stiv.py` (lines 93-119): bilinear samples of the frame at
`length` linearly spaced coordinates between `start` and `end`. -/
def extract_line_pixels (f : GFrame) (p q : ℤ × ℤ) (length : ℕ) : List ℚ :=
  (sampleCoords p q length).map (fun c => sampleAt f c.1 c.2)

/-- `line_length_px` as computed by `generate_sti` (lines 150-151):
`int(np.linalg.norm(start - end))` (truncation of the Euclidean norm,
which for a nonnegative float is the floor), raised to at least 1.
Since the endpoints are integer pixel coordinates, the squared distance
is a natural number and the floor of its real square root is `Nat.sqrt`. -/
def line_length_px (p q : ℤ × ℤ) : ℕ :=
  max (Nat.sqrt ((p.1 - q.1) ^ 2 + (p.2 - q.2) ^ 2).toNat) 1

/-- `calculate_velocity_structure_tensor(sti_img, fps, spat_res)` of
`baseline_stiv.py` (lines 180-211), the global-average mode: average
`Jxx` and `Jxt` over the whole image, guard the zero-average case, and
convert to physical velocity.  Returns `(velocity_ms, v_pix)`. -/
def calculate_velocity_structure_tensor
    (kp kt : Kern) (sti_img : Img) (fps spat_res : ℚ) : ℚ × ℚ :=
  let J := tensorJ kp kt sti_img
  let avg_Jxx := J.1.mean
  let avg_Jxt := J.2.mean
  let v_pix : ℚ := if avg_Jxx = 0 then 0 else -avg_Jxt / avg_Jxx
  let velocity_ms := v_pix * (spat_res * fps)
  (velocity_ms, v_pix)

/-! ## river_speed_camera.py: extended float values, calibration -/

/-- The value of a Python/numpy float where the streaming script's
divisions can leave the finite range: a finite rational, `+inf`, `-inf`,
or NaN.  numpy float division by zero does not raise; it produces an
infinity (or NaN for `0/0`) and continues. -/
inductive Fl where
  | fin (q : ℚ)
  | inf
  | ninf
  | nan
deriving DecidableEq, Repr

/-- numpy division of a finite float by a finite float. -/
def Fl.divQ (a b : ℚ) : Fl :=
  if b = 0 then
    if 0 < a then .inf else if a < 0 then .ninf else .nan
  else .fin (a / b)

/-- IEEE multiplication restricted to the shapes the scripts produce. -/
def Fl.mul : Fl → Fl → Fl
  | .fin a, .fin b => .fin (a * b)
  | .fin a, .inf => if 0 < a then .inf else if a < 0 then .ninf else .nan
  | .fin a, .ninf => if 0 < a then .ninf else if a < 0 then .inf else .nan
  | .inf, .fin b => if 0 < b then .inf else if b < 0 then .ninf else .nan
  | .ninf, .fin b => if 0 < b then .ninf else if b < 0 then .inf else .nan
  | .inf, .inf => .inf
  | .inf, .ninf => .ninf
  | .ninf, .inf => .ninf
  | .ninf, .ninf => .inf
  | .nan, _ => .nan
  | _, .nan => .nan

/-- IEEE `v > 0` (infinity is greater than zero; NaN compares false). -/
def Fl.isPos : Fl → Bool
  | .fin q => decide (0 < q)
  | .inf => true
  | .ninf => false
  | .nan => false

/-- Finiteness of an extended float value. -/
def Fl.isFinite : Fl → Bool
  | .fin _ => true
  | _ => false

/-- The effect of printing with format `f"{v:.4f}"`: the finite value is
rounded to 4 decimal digits.  (Python rounds ties to even; `round`
rounds ties up.  No claim below depends on a tie.)  Non-finite values
print as `inf`/`-inf`/`nan`. -/
def round4 : Fl → Fl
  | .fin q => .fin ((round (q * 10000) : ℚ) / 10000)
  | v => v

/-- A detector bounding box: class id and `xyxy` corner coordinates, as
returned by the external YOLO model (`box.cls`, `box.xyxy`). -/
structure Box where
  cls : ℤ
  x1 : ℚ
  y1 : ℚ
  x2 : ℚ
  y2 : ℚ
deriving DecidableEq, Repr

/-- One frame of the streaming environment: grayscale intensities (the
`cv2.cvtColor` BGR-to-gray conversion is folded into `gray`), together
with the boxes the external YOLO detector reports on this frame. -/
structure SFrame where
  h : ℕ
  w : ℕ
  gray : ℕ → ℕ → ℚ
  boxes : List Box

/-! Configuration constants of `river_speed_camera.py` (lines 70-93). -/

/-- `P_known = 200.0` (reference bounding-box width in pixels). -/
def P_known : ℚ := 200

/-- `D_known = 10.0` (reference camera distance in meters). -/
def D_known : ℚ := 10

/-- `W_real = 1.8` (reference object real width in meters). -/
def W_real : ℚ := 9 / 5

/-- `fps = 30.0`. -/
def fps : ℚ := 30

/-- `target_class = 2`. -/
def target_class : ℤ := 2

/-- `target_width = 1.8`. -/
def target_width : ℚ := 9 / 5

/-- `line_y = 360`. -/
def line_y : ℕ := 360

/-- `line_x_start = 100`. -/
def line_x_start : ℕ := 100

/-- `line_x_end = 1100`. -/
def line_x_end : ℕ := 1100

/-- `max_frames = 150`. -/
def max_frames : ℕ := 150

/-- `current_spatial_res = 0.01` (initial placeholder scale, m/px). -/
def init_spatial_res : Fl := .fin (1 / 100)

/-- `calculate_focal_length_factor(known_width_m, known_dist_m,
pixel_width_px)` (lines 17-23): `(pixel_width_px * known_dist_m) /
known_width_m`.  The inputs are plain Python floats, so a zero
`known_width_m` raises `ZeroDivisionError` (modelled as `none`); there
is no other validation in the source. -/
def calculate_focal_length_factor
    (known_width_m known_dist_m pixel_width_px : ℚ) : Option ℚ :=
  if known_width_m = 0 then none
  else some (pixel_width_px * known_dist_m / known_width_m)

/-- The focal factor `main` computes before the loop:
`calculate_focal_length_factor(W_real, D_known, P_known) = 10000/9`. -/
def F_factor : ℚ := P_known * D_known / W_real

/-- The first box of the target class in scan order (the script breaks
out of the detection loop at the first match, lines 37-50). -/
def firstTargetBox (boxes : List Box) (target : ℤ) : Option Box :=
  boxes.find? (fun b => b.cls = target)

/-- `estimate_resolution_from_yolo(frame, model, target_class_id,
real_width_m, focal_f)` (lines 26-63): `(None, None)` when no box of the
target class is found; otherwise distance `(real_width_m * focal_f) /
w_px` and spatial resolution `real_width_m / w_px` from the width
`w_px = x2 - x1` of the first matching box.  The divisions are numpy
float divisions: a zero width produces infinities, not an exception. -/
def estimate_resolution_from_yolo
    (f : SFrame) (target_class_id : ℤ) (real_width_m focal_f : ℚ) :
    Option (Fl × Fl) :=
  (firstTargetBox f.boxes target_class_id).map (fun b =>
    let w_px := b.x2 - b.x1
    (Fl.divQ (real_width_m * focal_f) w_px, Fl.divQ real_width_m w_px))

/-- The per-frame calibration action of the streaming loop (lines
135-141): on every in-window frame index divisible by 5, run the
detector; if it returns a resolution, store it; otherwise (and on all
other frames) keep the current value. -/
def runCalib (st : Fl) (idx : ℕ) (f : SFrame) : Fl :=
  if idx % 5 = 0 then
    match estimate_resolution_from_yolo f target_class target_width F_factor with
    | some (_, res) => res
    | none => st
  else st

/-- The sequence of `current_spatial_res` values after each frame of a
window, starting from state `st` at in-window index `i`. -/
def calibStates (st : Fl) (i : ℕ) : List SFrame → List Fl
  | [] => []
  | f :: rest =>
    let st' := runCalib st i f
    st' :: calibStates st' (i + 1) rest

/-- The calibration state after a whole window of frames. -/
def calibAfter (st : Fl) (i : ℕ) (fs : List SFrame) : Fl :=
  (calibStates st i fs).getLastD st

/-! ## river_speed_camera.py: per-pixel analysis and the streaming loop -/

/-- The per-pixel velocity field of the streaming analysis (lines
168-170): `valid_mask = Jxx > 0.1`; `v_pix` is `-Jxt/Jxx` on the mask
and `0` elsewhere. -/
def v_pix_field (kp kt : Kern) (sti : Img) : Img :=
  let J := tensorJ kp kt sti
  ⟨sti.t, sti.x, fun i j =>
    if 1 / 10 < J.1.val i j then -(J.2.val i j) / J.1.val i j else 0⟩

/-- `avg_v_pix = np.mean(v_pix)` (line 173): the mean of the per-pixel
velocity field over the whole image. -/
def avg_v_pix (kp kt : Kern) (sti : Img) : ℚ :=
  (v_pix_field kp kt sti).mean

/-- Modelled from the spec: the representative pixel velocity the spec
prescribes for per-pixel mode — "the mean over valid pixels", i.e. the
sum of `-Jxt/Jxx` over the pixels with `Jxx > 0.1` divided by the number
of such pixels (not by the total pixel count).  Stated for comparison
with `avg_v_pix`, which is what the source computes. -/
def specMeanOverValid (kp kt : Kern) (sti : Img) : ℚ :=
  let J := tensorJ kp kt sti
  let vsum := natSum sti.t (fun i => natSum sti.x (fun j =>
    if 1 / 10 < J.1.val i j then -(J.2.val i j) / J.1.val i j else 0))
  let vcount := natSum sti.t (fun i => natSum sti.x (fun j =>
    if 1 / 10 < J.1.val i j then 1 else 0))
  vsum / vcount

/-- The number of valid pixels (`Jxx > 0.1`) of an STI. -/
def validCount (kp kt : Kern) (sti : Img) : ℚ :=
  let J := tensorJ kp kt sti
  natSum sti.t (fun i => natSum sti.x (fun j =>
    if 1 / 10 < J.1.val i j then 1 else 0))

/-- The line-pixel row the streaming loop extracts from a frame (line
148): `gray[line_y, line_x_start:line_x_end]`.  numpy slicing clamps the
stop index to the row width. -/
def lineSlice (f : SFrame) : List ℚ :=
  (List.range (min f.w line_x_end - line_x_start)).map
    (fun i => f.gray line_y (line_x_start + i))

/-- `np.array(sti_list)` for a list of equal-length rows: row count ×
row width, indexed access (out-of-range reads default to 0; all claims
stay in range). -/
def stiOfRows (rows : List (List ℚ)) : Img :=
  ⟨rows.length, ((rows.head?.map List.length).getD 0),
    fun ti xi => (((rows.get? ti).bind (fun r => r.get? xi)).getD 0)⟩

/-- One analysis of a completed (possibly partial) window: build the STI
from the collected rows and compute `avg_v_pix` (lines 156-173). -/
def analyzeWindow (kp kt : Kern) (rows : List (List ℚ)) : ℚ :=
  avg_v_pix kp kt (stiOfRows rows)

/-- A line on the streaming script's standard output: `READY`, or one
velocity value (line 179 prints it with `:.4f`). -/
inductive Ev where
  | ready
  | vel (v : Fl)
deriving DecidableEq, Repr

/-- `velocity_ms = avg_v_pix * (current_spatial_res * fps)` (line 176),
with the spatial resolution an extended float. -/
def velocity_ms (v : ℚ) (res : Fl) : Fl :=
  Fl.mul (.fin v) (Fl.mul res (.fin fps))

/-- The acquisition loop of `main` (lines 122-179), run against an
environment in which `cap.read()` succeeds exactly for the listed frames
(in order) and fails afterwards.  Each iteration collects up to
`max_frames` frames into a window, updating the calibration state every
5th in-window frame; a read failure ends the window early; a window with
at least one frame is analyzed and its velocity printed; a window with
zero frames ends the loop. -/
def runLoopAux (kp kt : Kern) : ℕ → Fl → List SFrame → List Ev
  | _, _, [] => []
  | 0, _, _ :: _ => []
  | fuel + 1, st, f :: rest =>
    let frames := f :: rest
    let taken := frames.take max_frames
    let st' := calibAfter st 0 taken
    let v := analyzeWindow kp kt (taken.map lineSlice)
    Ev.vel (round4 (velocity_ms v st')) ::
      runLoopAux kp kt fuel st' (frames.drop max_frames)

/-- The loop itself: every iteration that emits consumes at least one
frame, so `frames.length` windows of fuel always suffice. -/
def runLoop (kp kt : Kern) (st : Fl) (frames : List SFrame) : List Ev :=
  runLoopAux kp kt frames.length st frames

/-- The standard-output trace of `main` (lines 100-181): nothing if the
camera cannot be opened; otherwise `READY` followed by one velocity line
per analyzed window. -/
def mainStdout (kp kt : Kern) (capOpened : Bool) (frames : List SFrame) :
    List Ev :=
  if capOpened then Ev.ready :: runLoop kp kt init_spatial_res frames else []

/-- The read-failure lines of the acquisition loop: `main` prints
`ERROR: Cannot read frame` once per failed `cap.read()` (line 130).
Against an environment whose reads succeed exactly for the listed frames
and fail afterwards, a window still holding fewer than `max_frames`
frames when the frames run out fails one read mid-window (one error
line) and the loop then analyzes the partial window and continues; the
first read of the following empty window fails again before the loop
exits.  A window that fills completely attempts no further read.  The
empty-frames base case is that final failing first read. -/
def runLoopErrAux : ℕ → List SFrame → List String
  | _, [] => ["ERROR: Cannot read frame"]
  | 0, _ :: _ => []
  | fuel + 1, f :: rest =>
    let frames := f :: rest
    (if frames.length < max_frames then ["ERROR: Cannot read frame"] else []) ++
      runLoopErrAux fuel (frames.drop max_frames)

/-- The standard-error trace of `main` in the same environment: the
open failure message if the camera cannot be opened, else one
`ERROR: Cannot read frame` line per failed `cap.read()` of the loop. -/
def mainStderr (capOpened : Bool) (frames : List SFrame) : List String :=
  if capOpened then runLoopErrAux frames.length frames
  else ["ERROR: Cannot open camera"]

/-- Number of velocity lines in a trace. -/
def countVel (l : List Ev) : ℕ :=
  l.countP (fun e => match e with | .vel _ => true | _ => false)

/-- Number of `READY` lines in a trace. -/
def countReady (l : List Ev) : ℕ :=
  l.countP (fun e => match e with | .ready => true | _ => false)

/-! ## Concrete instances used by witnesses and counterexamples -/

/-- The sum of `-Jxt/Jxx` over the valid pixels (`Jxx > 0.1`) of an STI. -/
def validSum (kp kt : Kern) (sti : Img) : ℚ :=
  let J := tensorJ kp kt sti
  natSum sti.t (fun i => natSum sti.x (fun j =>
    if 1 / 10 < J.1.val i j then -(J.2.val i j) / J.1.val i j else 0))

/-- The identity kernel (radius 0, unit weight at the origin): a valid
normalized symmetric nonnegative smoothing kernel, used to instantiate
the abstract Gaussian parameter at concrete inputs. -/
def kDelta : Kern := ⟨fun i => if i = 0 then 1 else 0, 0⟩

/-- A concrete 3×20 STI: a texture moving one pixel per frame in columns
0-5 (`100·(x − t)`), identically zero in columns 6-19.  The zero region
is wide enough that its far columns have zero gradient energy (invalid
pixels) under any admissible smoothing kernel, while the moving texture
produces valid pixels with a nonzero mean velocity. -/
def stiC1 : Img :=
  ⟨3, 20, fun i j => if j ≤ 5 then 100 * ((j : ℚ) - (i : ℚ)) else 0⟩

/-- A 102×720 all-black frame with no detections; its line slice is the
two line pixels `gray[360, 100:102]`. -/
def flatFrame : SFrame := ⟨720, 102, fun _ _ => 0, []⟩

/-- A detector box of the target class (car = 2) with zero width:
`x1 = x2 = 100`. -/
def zeroBox : Box := ⟨2, 100, 50, 100, 80⟩

/-- An all-black frame on which the detector reports `zeroBox`. -/
def zeroBoxFrame : SFrame := ⟨720, 102, fun _ _ => 0, [zeroBox]⟩

/-- A concrete 2×3 flat STI (every pixel `7`). -/
def flatSti : Img := ⟨2, 3, fun _ _ => 7⟩

/-- Total mass of a smoothing kernel. -/
def kernSum (k : Kern) : ℚ := isum (-(k.r : ℤ)) (k.r : ℤ) k.w

/-! ## Helper lemmas -/

attribute [local semireducible] Rat.add Rat.mul Rat.inv Rat.sub Rat.ofScientific

theorem natSum_succ (n : ℕ) (f : ℕ → ℚ) : natSum (n + 1) f = natSum n f + f n := by
  simp [natSum, List.range_succ]

theorem natSum_congr {n : ℕ} {f g : ℕ → ℚ} (h : ∀ k, k < n → f k = g k) :
    natSum n f = natSum n g := by
  induction n with
  | zero => rfl
  | succ m ih =>
    rw [natSum_succ, natSum_succ, ih (fun k hk => h k (Nat.lt_succ_of_lt hk)),
      h m (Nat.lt_succ_self m)]

theorem natSum_zero_fn (n : ℕ) : natSum n (fun _ => 0) = 0 := by
  induction n with
  | zero => rfl
  | succ m ih => rw [natSum_succ, ih, add_zero]

theorem natSum_mul_right (n : ℕ) (f : ℕ → ℚ) (c : ℚ) :
    natSum n (fun k => f k * c) = natSum n f * c := by
  induction n with
  | zero => simp [natSum]
  | succ m ih => rw [natSum_succ, natSum_succ, ih, add_mul]

theorem isum_congr {a b : ℤ} {f g : ℤ → ℚ} (h : ∀ i, a ≤ i → i ≤ b → f i = g i) :
    isum a b f = isum a b g := by
  unfold isum
  exact natSum_congr (fun k hk => h (a + k) (by omega) (by omega))

theorem isum_zero_fn (a b : ℤ) : isum a b (fun _ => 0) = 0 :=
  natSum_zero_fn _

theorem isum_mul_right (a b : ℤ) (f : ℤ → ℚ) (c : ℚ) :
    isum a b (fun i => f i * c) = isum a b f * c :=
  natSum_mul_right _ _ _

theorem dweight_total : isum (-1) 1 dweight = 0 := by decide

/-- The Sobel x-derivative of a constant image vanishes everywhere. -/
theorem sobelX_const {img : Img} {c : ℚ} (h : ∀ i j, img.val i j = c) :
    ∀ i j, (sobelX img).val i j = 0 := by
  intro i j
  show isum (-1) 1 (fun di => isum (-1) 1 (fun dj =>
    sweight di * dweight dj * img.at101 ((i : ℤ) + di) ((j : ℤ) + dj))) = 0
  have hin : ∀ di : ℤ, isum (-1) 1 (fun dj =>
      sweight di * dweight dj * img.at101 ((i : ℤ) + di) ((j : ℤ) + dj)) = 0 := by
    intro di
    have : isum (-1) 1 (fun dj =>
        sweight di * dweight dj * img.at101 ((i : ℤ) + di) ((j : ℤ) + dj)) =
        isum (-1) 1 (fun dj => dweight dj * (sweight di * c)) := by
      refine isum_congr (fun dj _ _ => ?_)
      rw [Img.at101, h]
      ring
    rw [this, isum_mul_right, dweight_total, zero_mul]
  calc isum (-1) 1 (fun di => isum (-1) 1 (fun dj =>
        sweight di * dweight dj * img.at101 ((i : ℤ) + di) ((j : ℤ) + dj)))
      = isum (-1) 1 (fun _ => (0 : ℚ)) := isum_congr (fun di _ _ => hin di)
    _ = 0 := isum_zero_fn _ _

/-- The Sobel t-derivative of a constant image vanishes everywhere. -/
theorem sobelT_const {img : Img} {c : ℚ} (h : ∀ i j, img.val i j = c) :
    ∀ i j, (sobelT img).val i j = 0 := by
  intro i j
  show isum (-1) 1 (fun di => isum (-1) 1 (fun dj =>
    dweight di * sweight dj * img.at101 ((i : ℤ) + di) ((j : ℤ) + dj))) = 0
  have hin : ∀ di : ℤ, isum (-1) 1 (fun dj =>
      dweight di * sweight dj * img.at101 ((i : ℤ) + di) ((j : ℤ) + dj)) =
      dweight di * (isum (-1) 1 sweight * c) := by
    intro di
    have : isum (-1) 1 (fun dj =>
        dweight di * sweight dj * img.at101 ((i : ℤ) + di) ((j : ℤ) + dj)) =
        isum (-1) 1 (fun dj => sweight dj * (dweight di * c)) := by
      refine isum_congr (fun dj _ _ => ?_)
      rw [Img.at101, h]
      ring
    rw [this, isum_mul_right]
    ring
  calc isum (-1) 1 (fun di => isum (-1) 1 (fun dj =>
        dweight di * sweight dj * img.at101 ((i : ℤ) + di) ((j : ℤ) + dj)))
      = isum (-1) 1 (fun di => dweight di * (isum (-1) 1 sweight * c)) :=
        isum_congr (fun di _ _ => hin di)
    _ = isum (-1) 1 dweight * (isum (-1) 1 sweight * c) := isum_mul_right _ _ _ _
    _ = 0 := by rw [dweight_total, zero_mul]

/-- Gaussian smoothing maps a constant image to a constant image. -/
theorem gaussian_filter_const {img : Img} {c : ℚ} (k : Kern)
    (h : ∀ i j, img.val i j = c) :
    ∀ i j, (gaussian_filter k img).val i j = kernSum k * (kernSum k * c) := by
  intro i j
  show isum (-(k.r : ℤ)) (k.r : ℤ) (fun di => isum (-(k.r : ℤ)) (k.r : ℤ) (fun dj =>
    k.w di * k.w dj * img.atSym ((i : ℤ) + di) ((j : ℤ) + dj))) =
    kernSum k * (kernSum k * c)
  have hin : ∀ di : ℤ, isum (-(k.r : ℤ)) (k.r : ℤ) (fun dj =>
      k.w di * k.w dj * img.atSym ((i : ℤ) + di) ((j : ℤ) + dj)) =
      k.w di * (kernSum k * c) := by
    intro di
    have : isum (-(k.r : ℤ)) (k.r : ℤ) (fun dj =>
        k.w di * k.w dj * img.atSym ((i : ℤ) + di) ((j : ℤ) + dj)) =
        isum (-(k.r : ℤ)) (k.r : ℤ) (fun dj => k.w dj * (k.w di * c)) := by
      refine isum_congr (fun dj _ _ => ?_)
      rw [Img.atSym, h]
      ring
    rw [this, isum_mul_right]
    unfold kernSum
    ring
  calc isum (-(k.r : ℤ)) (k.r : ℤ) (fun di => isum (-(k.r : ℤ)) (k.r : ℤ) (fun dj =>
        k.w di * k.w dj * img.atSym ((i : ℤ) + di) ((j : ℤ) + dj)))
      = isum (-(k.r : ℤ)) (k.r : ℤ) (fun di => k.w di * (kernSum k * c)) :=
        isum_congr (fun di _ _ => hin di)
    _ = kernSum k * (kernSum k * c) := isum_mul_right _ _ _ _

/-- The mean of an everywhere-zero image is zero. -/
theorem mean_zero {img : Img} (h : ∀ i j, img.val i j = 0) : img.mean = 0 := by
  unfold Img.mean
  have : natSum img.t (fun i => natSum img.x (fun j => img.val i j)) =
      natSum img.t (fun _ => 0) := by
    refine natSum_congr (fun i _ => ?_)
    have : natSum img.x (fun j => img.val i j) = natSum img.x (fun _ => 0) :=
      natSum_congr (fun j _ => h i j)
    rw [this, natSum_zero_fn]
  rw [this, natSum_zero_fn, zero_div]

/-! ## Claim theorems -/

/-- C4: in global-average mode the pixel velocity is `0` when the
image-wide average of `Jxx` is `0` and `-avg(Jxt)/avg(Jxx)` otherwise;
for a flat STI (constant image) the average of `Jxx` is exactly `0`, so
the returned pixel velocity (and physical velocity) is exactly `0` —
the zero-average guard branch is taken, no division is performed, and in
exact arithmetic no NaN/infinity can arise. -/
theorem c4_flat_sti_zero_velocity (kp kt : Kern) (f s c : ℚ) (sti : Img)
    (hflat : ∀ i j, sti.val i j = c) :
    (∀ (sti' : Img) (f' s' : ℚ),
      (calculate_velocity_structure_tensor kp kt sti' f' s').2 =
        if (tensorJ kp kt sti').1.mean = 0 then 0
        else -(tensorJ kp kt sti').2.mean / (tensorJ kp kt sti').1.mean) ∧
    (tensorJ kp kt sti).1.mean = 0 ∧
    calculate_velocity_structure_tensor kp kt sti f s = (0, 0) := by
  have hs : ∀ i j, (gaussian_filter kp sti).val i j =
      kernSum kp * (kernSum kp * c) := gaussian_filter_const kp hflat
  have hIx : ∀ i j, (sobelX (gaussian_filter kp sti)).val i j = 0 :=
    sobelX_const hs
  have hIxx : ∀ i j, (Img.mul (sobelX (gaussian_filter kp sti))
      (sobelX (gaussian_filter kp sti))).val i j = 0 := by
    intro i j
    show (sobelX (gaussian_filter kp sti)).val i j *
      (sobelX (gaussian_filter kp sti)).val i j = 0
    rw [hIx, zero_mul]
  have hJxx : ∀ i j, (tensorJ kp kt sti).1.val i j = 0 := by
    intro i j
    have := gaussian_filter_const kt hIxx i j
    simpa [mul_zero] using this
  have h2 : (tensorJ kp kt sti).1.mean = 0 := mean_zero hJxx
  refine ⟨fun _ _ _ => rfl, h2, ?_⟩
  simp [calculate_velocity_structure_tensor, h2]

/-- Witness for C4 at a concrete flat 2×3 STI and the identity kernel. -/
theorem c4_flat_sti_zero_velocity_witness :
    (∀ i j, flatSti.val i j = 7) ∧
    calculate_velocity_structure_tensor kDelta kDelta flatSti 30 (1 / 100) = (0, 0) :=
  ⟨fun _ _ => rfl,
    (c4_flat_sti_zero_velocity kDelta kDelta 30 (1 / 100) 7 flatSti
      (fun _ _ => rfl)).2.2⟩

/-- C5: `calculate_focal_length_factor` is pure and deterministic,
computes `pixel_width * distance / real_width`, and at the reference
triple (pixel width 200, distance 10, real width 1.8) yields
`10000/9 ≈ 1111.11` (within `0.01`). -/
theorem c5_focal_factor_pure_value :
    (∀ w1 d1 p1 w2 d2 p2 : ℚ, w1 = w2 → d1 = d2 → p1 = p2 →
      calculate_focal_length_factor w1 d1 p1 =
        calculate_focal_length_factor w2 d2 p2) ∧
    (∀ w d p : ℚ, w ≠ 0 →
      calculate_focal_length_factor w d p = some (p * d / w)) ∧
    calculate_focal_length_factor W_real D_known P_known = some (10000 / 9) ∧
    |(10000 : ℚ) / 9 - 111111 / 100| < 1 / 100 := by
  refine ⟨?_, ?_, ?_, ?_⟩
  · intro w1 d1 p1 w2 d2 p2 hw hd hp
    rw [hw, hd, hp]
  · intro w d p hw
    simp [calculate_focal_length_factor, hw]
  · decide
  · rw [abs_sub_lt_iff]
    norm_num

/-- Witness for C5 at the spec's reference inputs. -/
theorem c5_focal_factor_pure_value_witness :
    (9 : ℚ) / 5 ≠ 0 ∧
    calculate_focal_length_factor (9 / 5) 10 200 = some (200 * 10 / (9 / 5)) :=
  ⟨by norm_num, c5_focal_factor_pure_value.2.1 (9 / 5) 10 200 (by norm_num)⟩

/-- C6 counterexample: the claim says `computeFocalFactor` fails whenever
an input is `≤ 0`; but the source performs no validation, and at the
non-positive pixel width `-200` it succeeds and returns the (negative)
formula value instead of failing. -/
theorem c6_counterexample :
    ((0 : ℚ) < 9 / 5 ∧ (0 : ℚ) < 10 ∧ (-200 : ℚ) ≤ 0) ∧
    calculate_focal_length_factor (9 / 5) 10 (-200) = some (-(10000 / 9)) ∧
    ¬ (∀ w d p : ℚ, (w ≤ 0 ∨ d ≤ 0 ∨ p ≤ 0) →
        calculate_focal_length_factor w d p = none) := by
  refine ⟨by norm_num, by decide, fun h => ?_⟩
  have := h (9 / 5) 10 (-200) (Or.inr (Or.inr (by norm_num)))
  simp [calculate_focal_length_factor] at this

/-- C6 amended: the source applies no input validation at all; the call
fails (with `ZeroDivisionError`) exactly when the reference real width is
zero, and for every nonzero real width — including non-positive inputs —
it returns the formula value.  In `main` the factor is computed from the
positive constants `W_real`, `D_known`, `P_known` before the camera is
opened, so no failure occurs before the loop. -/
theorem c6_amended (w d p : ℚ) :
    (calculate_focal_length_factor w d p = none ↔ w = 0) ∧
    (w ≠ 0 → calculate_focal_length_factor w d p = some (p * d / w)) ∧
    calculate_focal_length_factor W_real D_known P_known = some F_factor := by
  refine ⟨?_, ?_, by decide⟩
  · unfold calculate_focal_length_factor
    split_ifs with hw
    · simp [hw]
    · simp [hw]
  · intro hw
    simp [calculate_focal_length_factor, hw]

/-- Witness for C6's amended claim at the source's own constants. -/
theorem c6_amended_witness :
    W_real ≠ 0 ∧ calculate_focal_length_factor W_real D_known P_known =
      some (P_known * D_known / W_real) :=
  ⟨by decide, (c6_amended W_real D_known P_known).2.1 (by decide)⟩

/-- C7: the physical velocity is `v_pix * spatial_res * fps` in both
scripts; with positive spatial resolution and frame rate the sign of the
physical velocity equals the sign of the pixel velocity (never
absolute-valued), so negating the pixel velocity (reversed flow) negates
the physical velocity. -/
theorem c7_physical_velocity_sign (kp kt : Kern) (sti : Img) (f s : ℚ) :
    ((calculate_velocity_structure_tensor kp kt sti f s).1 =
      (calculate_velocity_structure_tensor kp kt sti f s).2 * (s * f)) ∧
    (0 < s → 0 < f →
      (0 < (calculate_velocity_structure_tensor kp kt sti f s).2 →
        0 < (calculate_velocity_structure_tensor kp kt sti f s).1) ∧
      ((calculate_velocity_structure_tensor kp kt sti f s).2 < 0 →
        (calculate_velocity_structure_tensor kp kt sti f s).1 < 0) ∧
      ((calculate_velocity_structure_tensor kp kt sti f s).2 = 0 →
        (calculate_velocity_structure_tensor kp kt sti f s).1 = 0)) ∧
    (∀ v : ℚ, -v * (s * f) = -(v * (s * f))) ∧
    (∀ (v s' : ℚ), velocity_ms v (.fin s') = .fin (v * (s' * fps))) := by
  refine ⟨rfl, ?_, fun v => by ring, fun v s' => rfl⟩
  intro hs hf
  have hsf : 0 < s * f := mul_pos hs hf
  refine ⟨fun h => mul_pos h hsf, fun h => mul_neg_of_neg_of_pos h hsf,
    fun h => ?_⟩
  rw [show (calculate_velocity_structure_tensor kp kt sti f s).1 =
    (calculate_velocity_structure_tensor kp kt sti f s).2 * (s * f) from rfl, h,
    zero_mul]

/-- Witness for C7 at a concrete STI, spatial resolution `0.01` and
frame rate `30`. -/
theorem c7_physical_velocity_sign_witness :
    (0 : ℚ) < 1 / 100 ∧ (0 : ℚ) < 30 ∧
    ((0 < (calculate_velocity_structure_tensor kDelta kDelta stiC1 30 (1 / 100)).2 →
      0 < (calculate_velocity_structure_tensor kDelta kDelta stiC1 30 (1 / 100)).1)) :=
  ⟨by norm_num, by norm_num,
    ((c7_physical_velocity_sign kDelta kDelta stiC1 30 (1 / 100)).2.1
      (by norm_num) (by norm_num)).1⟩

set_option maxRecDepth 8000 in
/-- C1 counterexample: the per-pixel field is indeed `-Jxt/Jxx` exactly
where `Jxx > 0.1` and `0` elsewhere, but the reported representative
velocity is `np.mean(v_pix)` over the whole image, NOT the mean over the
valid pixels: at the concrete STI `stiC1` (with the identity kernel,
which is a valid normalized smoothing kernel) 18 of the 60 pixels are
valid, the whole-image mean is `9/160`, and the valid-pixel mean is
`3/16 ≠ 9/160`. -/
theorem c1_counterexample :
    Kern.valid kDelta ∧
    validCount kDelta kDelta stiC1 = 18 ∧
    avg_v_pix kDelta kDelta stiC1 = 9 / 160 ∧
    specMeanOverValid kDelta kDelta stiC1 = 3 / 16 ∧
    ¬ (∀ (kp kt : Kern) (sti : Img), Kern.valid kp → Kern.valid kt →
        avg_v_pix kp kt sti = specMeanOverValid kp kt sti) := by
  have hvalid : Kern.valid kDelta := by
    refine ⟨?_, ?_, by decide, ?_⟩
    · intro i
      by_cases h : i = 0 <;> simp [kDelta, h]
    · intro i
      by_cases h : i = 0 <;> simp [kDelta, h, neg_eq_zero]
    · intro i hi
      have hne : i ≠ 0 := by
        intro h
        subst h
        simp [kDelta] at hi
      simp [kDelta, hne]
  have hne : avg_v_pix kDelta kDelta stiC1 ≠ specMeanOverValid kDelta kDelta stiC1 := by
    decide
  exact ⟨hvalid, by decide, by decide, by decide,
    fun h => hne (h kDelta kDelta stiC1 hvalid hvalid)⟩

/-- C1 amended: in per-pixel mode the velocity field is computed
pointwise as `-Jxt/Jxx` exactly at pixels with `Jxx > 0.1` and left `0`
elsewhere (as claimed), but the representative pixel velocity is the
mean of this field over ALL pixels of the STI — the sum of the valid
pixels' velocities divided by the total pixel count `t·x`, equal to the
valid-pixel mean scaled by the valid fraction — not the mean over only
the valid pixels. -/
theorem c1_amended_mean_over_all (kp kt : Kern) (sti : Img) :
    (∀ i j, (v_pix_field kp kt sti).val i j =
      if 1 / 10 < (tensorJ kp kt sti).1.val i j then
        -((tensorJ kp kt sti).2.val i j) / (tensorJ kp kt sti).1.val i j
      else 0) ∧
    avg_v_pix kp kt sti = validSum kp kt sti / ((sti.t : ℚ) * (sti.x : ℚ)) ∧
    specMeanOverValid kp kt sti = validSum kp kt sti / validCount kp kt sti ∧
    (validCount kp kt sti ≠ 0 →
      avg_v_pix kp kt sti =
        specMeanOverValid kp kt sti *
          (validCount kp kt sti / ((sti.t : ℚ) * (sti.x : ℚ)))) := by
  refine ⟨fun _ _ => rfl, rfl, rfl, fun hc => ?_⟩
  show validSum kp kt sti / ((sti.t : ℚ) * (sti.x : ℚ)) =
    validSum kp kt sti / validCount kp kt sti *
      (validCount kp kt sti / ((sti.t : ℚ) * (sti.x : ℚ)))
  rw [div_mul_div_comm, mul_comm (validSum kp kt sti) (validCount kp kt sti),
    mul_div_mul_left _ _ hc]

set_option maxRecDepth 8000 in
/-- Witness for C1's amended claim at the concrete STI `stiC1`. -/
theorem c1_amended_mean_over_all_witness :
    validCount kDelta kDelta stiC1 ≠ 0 ∧
    avg_v_pix kDelta kDelta stiC1 =
      specMeanOverValid kDelta kDelta stiC1 *
        (validCount kDelta kDelta stiC1 / ((stiC1.t : ℚ) * (stiC1.x : ℚ))) :=
  ⟨by decide,
    (c1_amended_mean_over_all kDelta kDelta stiC1).2.2.2 (by decide)⟩

theorem sampleCoords_eq_map (p q : ℤ × ℤ) (n : ℕ) :
    sampleCoords p q n = (List.range n).map
      (fun k => (linPoint (p.1 : ℚ) (q.1 : ℚ) n k,
        linPoint (p.2 : ℚ) (q.2 : ℚ) n k)) := by
  unfold sampleCoords linspace
  rw [List.zip_map']

theorem linPoint_zero (a b : ℚ) (n : ℕ) : linPoint a b n 0 = a := by
  unfold linPoint
  split_ifs <;> simp

theorem linPoint_last (a b : ℚ) {n : ℕ} (hn : 2 ≤ n) :
    linPoint a b n (n - 1) = b := by
  unfold linPoint
  rw [if_neg (by omega)]
  have h2 : (2 : ℚ) ≤ (n : ℚ) := by exact_mod_cast hn
  have hne : ((n : ℚ) - 1) ≠ 0 := by linarith
  have hcast : (((n - 1 : ℕ)) : ℚ) = (n : ℚ) - 1 := by
    have h1 : 1 ≤ n := by omega
    push_cast [h1]
    ring
  rw [hcast]
  field_simp

theorem linPoint_step (a b : ℚ) {n k : ℕ} (hk : k + 1 < n) :
    linPoint a b n (k + 1) - linPoint a b n k = (b - a) / ((n : ℚ) - 1) := by
  unfold linPoint
  simp only [if_neg (show ¬ n ≤ 1 by omega)]
  push_cast
  ring

theorem linPoint_between (a b : ℚ) {n k : ℕ} (hk : k < n) :
    (linPoint a b n k - a) * (linPoint a b n k - b) ≤ 0 := by
  unfold linPoint
  split_ifs with h
  · simp
  · have hn : 2 ≤ n := by omega
    have h2 : (2 : ℚ) ≤ (n : ℚ) := by exact_mod_cast hn
    have hm : (0 : ℚ) < (n : ℚ) - 1 := by linarith
    have hkm : (k : ℚ) ≤ (n : ℚ) - 1 := by
      have : ((k : ℚ) + 1) ≤ (n : ℚ) := by exact_mod_cast hk
      linarith
    have hk0 : (0 : ℚ) ≤ (k : ℚ) := Nat.cast_nonneg k
    have key : (a + (k : ℚ) * (b - a) / ((n : ℚ) - 1) - a) *
        (a + (k : ℚ) * (b - a) / ((n : ℚ) - 1) - b) =
        ((k : ℚ) * ((k : ℚ) - ((n : ℚ) - 1))) * ((b - a) / ((n : ℚ) - 1)) ^ 2 := by
      field_simp
      ring
    rw [key]
    apply mul_nonpos_of_nonpos_of_nonneg
    · exact mul_nonpos_of_nonneg_of_nonpos hk0 (by linarith)
    · exact sq_nonneg _

/-- C9: for every line segment, the derived `length_px` equals the
Euclidean distance between the integer endpoints floored to an integer
and raised to at least 1; and for every frame the line sampler returns
exactly `length_px` scalar samples, taken by bilinear interpolation at
`length_px` evenly spaced points lying between the endpoints (inclusive
range): the first point is the start, consecutive points differ by the
constant step `(end−start)/(length_px−1)`, every point lies between the
endpoints in both coordinates, and for `length_px ≥ 2` the last point is
the end. -/
theorem c9_line_sampler (f : GFrame) (p q : ℤ × ℤ) :
    (extract_line_pixels f p q (line_length_px p q)).length = line_length_px p q ∧
    ((line_length_px p q : ℤ) =
      max ⌊Real.sqrt (((p.1 : ℝ) - (q.1 : ℝ)) ^ 2 + ((p.2 : ℝ) - (q.2 : ℝ)) ^ 2)⌋ 1) ∧
    extract_line_pixels f p q (line_length_px p q) =
      (sampleCoords p q (line_length_px p q)).map (fun c => sampleAt f c.1 c.2) ∧
    sampleCoords p q (line_length_px p q) =
      (List.range (line_length_px p q)).map
        (fun k => (linPoint (p.1 : ℚ) (q.1 : ℚ) (line_length_px p q) k,
          linPoint (p.2 : ℚ) (q.2 : ℚ) (line_length_px p q) k)) ∧
    (linPoint (p.1 : ℚ) (q.1 : ℚ) (line_length_px p q) 0 = (p.1 : ℚ) ∧
      linPoint (p.2 : ℚ) (q.2 : ℚ) (line_length_px p q) 0 = (p.2 : ℚ)) ∧
    (2 ≤ line_length_px p q →
      linPoint (p.1 : ℚ) (q.1 : ℚ) (line_length_px p q) (line_length_px p q - 1) =
        (q.1 : ℚ) ∧
      linPoint (p.2 : ℚ) (q.2 : ℚ) (line_length_px p q) (line_length_px p q - 1) =
        (q.2 : ℚ)) ∧
    (∀ k, k + 1 < line_length_px p q →
      linPoint (p.1 : ℚ) (q.1 : ℚ) (line_length_px p q) (k + 1) -
          linPoint (p.1 : ℚ) (q.1 : ℚ) (line_length_px p q) k =
        ((q.1 : ℚ) - (p.1 : ℚ)) / ((line_length_px p q : ℚ) - 1) ∧
      linPoint (p.2 : ℚ) (q.2 : ℚ) (line_length_px p q) (k + 1) -
          linPoint (p.2 : ℚ) (q.2 : ℚ) (line_length_px p q) k =
        ((q.2 : ℚ) - (p.2 : ℚ)) / ((line_length_px p q : ℚ) - 1)) ∧
    (∀ k, k < line_length_px p q →
      (linPoint (p.1 : ℚ) (q.1 : ℚ) (line_length_px p q) k - (p.1 : ℚ)) *
        (linPoint (p.1 : ℚ) (q.1 : ℚ) (line_length_px p q) k - (q.1 : ℚ)) ≤ 0 ∧
      (linPoint (p.2 : ℚ) (q.2 : ℚ) (line_length_px p q) k - (p.2 : ℚ)) *
        (linPoint (p.2 : ℚ) (q.2 : ℚ) (line_length_px p q) k - (q.2 : ℚ)) ≤ 0) := by
  refine ⟨?_, ?_, rfl, sampleCoords_eq_map p q _,
    ⟨linPoint_zero _ _ _, linPoint_zero _ _ _⟩,
    fun h2 => ⟨linPoint_last _ _ h2, linPoint_last _ _ h2⟩,
    fun k hk => ⟨linPoint_step _ _ hk, linPoint_step _ _ hk⟩,
    fun k hk => ⟨linPoint_between _ _ hk, linPoint_between _ _ hk⟩⟩
  · simp [extract_line_pixels, sampleCoords, linspace]
  · unfold line_length_px
    set s : ℤ := (p.1 - q.1) ^ 2 + (p.2 - q.2) ^ 2 with hs
    have hs0 : (0 : ℤ) ≤ s := by positivity
    have hcast : ((s.toNat : ℕ) : ℝ) =
        ((p.1 : ℝ) - (q.1 : ℝ)) ^ 2 + ((p.2 : ℝ) - (q.2 : ℝ)) ^ 2 := by
      have h1 : ((s.toNat : ℤ) : ℝ) = (s : ℝ) := by
        exact_mod_cast congrArg (fun z : ℤ => (z : ℝ)) (Int.toNat_of_nonneg hs0)
      have h2 : ((s.toNat : ℕ) : ℝ) = ((s.toNat : ℤ) : ℝ) := by push_cast; ring
      rw [h2, h1, hs]
      push_cast
      ring
    rw [← hcast, Real.floor_real_sqrt_eq_nat_sqrt]
    push_cast
    rfl

theorem line_length_px_example : line_length_px (0, 0) (30, 40) = 50 := by
  unfold line_length_px
  rw [show Int.toNat (((0 : ℤ) - 30) ^ 2 + ((0 : ℤ) - 40) ^ 2) = 2500 from rfl]
  norm_num

/-- Witness for C9 at the concrete segment `(0,0) – (30,40)` (length 50)
on a concrete 4×4 frame. -/
theorem c9_line_sampler_witness :
    (extract_line_pixels ⟨4, 4, fun _ _ => 1⟩ (0, 0) (30, 40)
        (line_length_px (0, 0) (30, 40))).length = line_length_px (0, 0) (30, 40) ∧
    2 ≤ line_length_px (0, 0) (30, 40) ∧
    linPoint ((0 : ℤ) : ℚ) ((30 : ℤ) : ℚ) (line_length_px (0, 0) (30, 40))
      (line_length_px (0, 0) (30, 40) - 1) = ((30 : ℤ) : ℚ) :=
  ⟨(c9_line_sampler ⟨4, 4, fun _ _ => 1⟩ (0, 0) (30, 40)).1,
    by rw [line_length_px_example]; omega,
    ((c9_line_sampler ⟨4, 4, fun _ _ => 1⟩ (0, 0) (30, 40)).2.2.2.2.2.1
      (by rw [line_length_px_example]; omega)).1⟩

/-- `runCalib` preserves strict positivity of the calibration state,
provided every reported box is well-formed (`x1 ≤ x2`): a successful
detection stores `1.8 / w` with `w ≥ 0`, which is a positive rational
for `w > 0` and `+inf` (positive in the IEEE order) for `w = 0`. -/
theorem runCalib_isPos {st : Fl} {idx : ℕ} {f : SFrame}
    (hpos : st.isPos = true) (hwf : ∀ b ∈ f.boxes, b.x1 ≤ b.x2) :
    (runCalib st idx f).isPos = true := by
  unfold runCalib
  split_ifs with h5
  · cases hF : firstTargetBox f.boxes target_class with
    | none => simp [estimate_resolution_from_yolo, hF, hpos]
    | some b =>
      have hb : b ∈ f.boxes := List.mem_of_find?_eq_some hF
      have hw0 : 0 ≤ b.x2 - b.x1 := by
        have := hwf b hb
        linarith
      simp only [estimate_resolution_from_yolo, hF, Option.map_some']
      by_cases hz : b.x2 - b.x1 = 0
      · simp only [Fl.divQ, if_pos hz,
          if_pos (show (0 : ℚ) < target_width by norm_num [target_width])]
        rfl
      · have hwpos : 0 < b.x2 - b.x1 := lt_of_le_of_ne hw0 (fun h => hz h.symm)
        simp only [Fl.divQ, if_neg hz, Fl.isPos, decide_eq_true_eq]
        exact div_pos (by norm_num [target_width]) hwpos
  · exact hpos

/-- Every state along a calibration trace is positive, given a positive
start state and well-formed boxes. -/
theorem calibStates_isPos :
    ∀ (frames : List SFrame) (st : Fl) (i : ℕ), st.isPos = true →
      (∀ f ∈ frames, ∀ b ∈ f.boxes, b.x1 ≤ b.x2) →
      ∀ s ∈ calibStates st i frames, s.isPos = true := by
  intro frames
  induction frames with
  | nil =>
    intro st i _ _ s hs
    simp [calibStates] at hs
  | cons f rest ih =>
    intro st i hpos hwf s hs
    have hstep : (runCalib st i f).isPos = true :=
      runCalib_isPos hpos (hwf f (List.mem_cons_self f rest))
    simp only [calibStates, List.mem_cons] at hs
    rcases hs with h | h
    · rw [h]; exact hstep
    · exact ih (runCalib st i f) (i + 1) hstep
        (fun g hg => hwf g (List.mem_cons_of_mem f hg)) s h

/-- C3: `current_spatial_res` starts positive (`0.01`) and, along any
sequence of frames with well-formed detector boxes, stays positive (in
the IEEE order, where `+inf > 0`) after every frame; it changes only on
in-window frame indices divisible by 5 on which the detector reports a
target-class box — on every other frame, and on every failed detection,
`runCalib` returns the previous state unchanged, and on success it
stores the reported resolution. -/
theorem c3_spatial_res_invariant (st : Fl) (i : ℕ) (frames : List SFrame)
    (hpos : st.isPos = true)
    (hwf : ∀ f ∈ frames, ∀ b ∈ f.boxes, b.x1 ≤ b.x2) :
    init_spatial_res.isPos = true ∧
    (∀ s ∈ calibStates st i frames, s.isPos = true) ∧
    (∀ (st' : Fl) (idx : ℕ) (f : SFrame), idx % 5 ≠ 0 →
      runCalib st' idx f = st') ∧
    (∀ (st' : Fl) (idx : ℕ) (f : SFrame),
      estimate_resolution_from_yolo f target_class target_width F_factor = none →
      runCalib st' idx f = st') ∧
    (∀ (st' : Fl) (idx : ℕ) (f : SFrame) (d r : Fl), idx % 5 = 0 →
      estimate_resolution_from_yolo f target_class target_width F_factor =
        some (d, r) →
      runCalib st' idx f = r) := by
  refine ⟨rfl, calibStates_isPos frames st i hpos hwf, ?_, ?_, ?_⟩
  · intro st' idx f h5
    unfold runCalib
    rw [if_neg h5]
  · intro st' idx f hE
    unfold runCalib
    split_ifs with h5
    · rw [hE]
    · rfl
  · intro st' idx f d r h5 hE
    unfold runCalib
    rw [if_pos h5, hE]

/-- Witness for C3 on a one-frame sequence whose detector box has zero
width (`x1 = x2`, the extreme well-formed case). -/
theorem c3_spatial_res_invariant_witness :
    init_spatial_res.isPos = true ∧
    (∀ f ∈ [zeroBoxFrame], ∀ b ∈ f.boxes, b.x1 ≤ b.x2) ∧
    (∀ s ∈ calibStates init_spatial_res 0 [zeroBoxFrame], s.isPos = true) :=
  ⟨by decide, by decide,
    (c3_spatial_res_invariant init_spatial_res 0 [zeroBoxFrame]
      (by decide) (by decide)).2.1⟩

/-- Every event the acquisition loop emits is a velocity line carrying a
4-decimal-rounded value. -/
theorem runLoopAux_all_vel (kp kt : Kern) :
    ∀ (fuel : ℕ) (st : Fl) (frames : List SFrame) (e : Ev),
      e ∈ runLoopAux kp kt fuel st frames → ∃ u, e = .vel (round4 u) := by
  intro fuel
  induction fuel with
  | zero =>
    intro st frames e he
    cases frames <;> simp [runLoopAux] at he
  | succ n ih =>
    intro st frames e he
    cases frames with
    | nil => simp [runLoopAux] at he
    | cons f rest =>
      simp only [runLoopAux, List.mem_cons] at he
      rcases he with h | h
      · exact ⟨_, h⟩
      · exact ih _ _ e h

theorem countVel_cons_vel (v : Fl) (l : List Ev) :
    countVel (.vel v :: l) = countVel l + 1 := by
  simp [countVel, List.countP_cons]

theorem countVel_cons_ready (l : List Ev) :
    countVel (.ready :: l) = countVel l := by
  simp [countVel, List.countP_cons]

theorem countReady_cons_ready (l : List Ev) :
    countReady (.ready :: l) = countReady l + 1 := by
  simp [countReady, List.countP_cons]

theorem countReady_eq_zero_of_all_vel {l : List Ev}
    (h : ∀ e ∈ l, ∃ u, e = Ev.vel (round4 u)) : countReady l = 0 := by
  rw [countReady, List.countP_eq_zero]
  intro e he
  obtain ⟨u, hu⟩ := h e he
  subst hu
  simp

/-- The loop emits one velocity line per nonempty window:
`⌈n / max_frames⌉` lines for `n` available frames. -/
theorem countVel_runLoopAux (kp kt : Kern) :
    ∀ (fuel : ℕ) (frames : List SFrame) (st : Fl), frames.length ≤ fuel →
      countVel (runLoopAux kp kt fuel st frames) =
        (frames.length + (max_frames - 1)) / max_frames := by
  intro fuel
  induction fuel with
  | zero =>
    intro frames st hle
    cases frames with
    | nil => simp [runLoopAux, countVel, max_frames]
    | cons f r => simp at hle
  | succ n ih =>
    intro frames st hle
    cases frames with
    | nil => simp [runLoopAux, countVel, max_frames]
    | cons f rest =>
      have hdrop : ((f :: rest).drop max_frames).length ≤ n := by
        simp only [List.length_drop, List.length_cons, max_frames] at *
        omega
      have hstep : runLoopAux kp kt (n + 1) st (f :: rest) =
          Ev.vel (round4 (velocity_ms (analyzeWindow kp kt
            (((f :: rest).take max_frames).map lineSlice))
            (calibAfter st 0 ((f :: rest).take max_frames)))) ::
          runLoopAux kp kt n (calibAfter st 0 ((f :: rest).take max_frames))
            ((f :: rest).drop max_frames) := rfl
      rw [hstep, countVel_cons_vel, ih _ _ hdrop]
      simp only [List.length_drop, List.length_cons, max_frames]
      omega

/-- `countVel` over the full loop. -/
theorem countVel_runLoop (kp kt : Kern) (st : Fl) (frames : List SFrame) :
    countVel (runLoop kp kt st frames) =
      (frames.length + (max_frames - 1)) / max_frames :=
  countVel_runLoopAux kp kt frames.length frames st le_rfl

set_option maxRecDepth 10000 in
/-- C2 counterexample: the claim says a mid-window read failure emits no
velocity for the partially-filled window; but running the loop against an
environment that yields exactly one frame (so the first window of 150
fails after 1 frame) emits `READY` followed by a velocity line for that
partial window. -/
theorem c2_counterexample :
    (1 : ℕ) < max_frames ∧
    mainStdout kDelta kDelta true [flatFrame] = [.ready, .vel (.fin 0)] ∧
    ¬ (∀ (kp kt : Kern) (st : Fl) (frames : List SFrame),
        frames ≠ [] → frames.length < max_frames →
        countVel (runLoop kp kt st frames) = 0) := by
  refine ⟨by decide, by decide, fun h => ?_⟩
  have h1 := h kDelta kDelta init_spatial_res [flatFrame]
    (by simp) (by simp [max_frames])
  rw [countVel_runLoop] at h1
  simp [max_frames] at h1

/-- C2 amended: a frame-read failure ends the current acquisition window
early, but a window that already holds at least one frame is still
analyzed and its velocity emitted: the loop prints `⌈n/150⌉` velocity
lines for `n` readable frames — in particular at least one line whenever
any frame was read, and exactly one extra line for a trailing partial
window — and then terminates (the script prints no `STOPPED` marker on
read failure; `STOPPED` appears only on keyboard interrupt). -/
theorem c2_amended_partial_window_emitted (kp kt : Kern) (st : Fl)
    (frames : List SFrame) :
    countVel (runLoop kp kt st frames) =
      (frames.length + (max_frames - 1)) / max_frames ∧
    (frames ≠ [] → 1 ≤ countVel (runLoop kp kt st frames)) ∧
    (frames.length % max_frames ≠ 0 →
      countVel (runLoop kp kt st frames) =
        frames.length / max_frames + 1) := by
  refine ⟨countVel_runLoop kp kt st frames, fun hne => ?_, fun hmod => ?_⟩
  · rw [countVel_runLoop]
    have : frames.length ≠ 0 := fun h => hne (List.eq_nil_of_length_eq_zero h)
    simp only [max_frames] at *
    omega
  · rw [countVel_runLoop]
    simp only [max_frames] at *
    omega

/-- Witness for C2's amended claim on a one-frame environment. -/
theorem c2_amended_partial_window_emitted_witness :
    ([flatFrame] : List SFrame).length % max_frames ≠ 0 ∧
    countVel (runLoop kDelta kDelta init_spatial_res [flatFrame]) =
      ([flatFrame] : List SFrame).length / max_frames + 1 :=
  ⟨by decide,
    (c2_amended_partial_window_emitted kDelta kDelta init_spatial_res
      [flatFrame]).2.2 (by decide)⟩

/-- With enough fuel, the loop's error channel is `ERROR: Cannot read
frame` repeated once when the frame count is an exact multiple of
`max_frames` (only the final empty window's first read fails) and twice
otherwise (once mid-way through the trailing partial window, once on the
following empty window). -/
theorem runLoopErrAux_replicate :
    ∀ (fuel : ℕ) (frames : List SFrame), frames.length ≤ fuel →
      runLoopErrAux fuel frames =
        List.replicate (if frames.length % max_frames = 0 then 1 else 2)
          "ERROR: Cannot read frame" := by
  intro fuel
  induction fuel with
  | zero =>
    intro frames hle
    cases frames with
    | nil => simp [runLoopErrAux]
    | cons f r => simp at hle
  | succ n ih =>
    intro frames hle
    cases frames with
    | nil => simp [runLoopErrAux]
    | cons f rest =>
      have hstep : runLoopErrAux (n + 1) (f :: rest) =
          (if (f :: rest).length < max_frames then ["ERROR: Cannot read frame"]
            else []) ++ runLoopErrAux n ((f :: rest).drop max_frames) := rfl
      by_cases hlt : (f :: rest).length < max_frames
      · have hdrop : (f :: rest).drop max_frames = [] :=
          List.drop_eq_nil_of_le (le_of_lt hlt)
        have hmod : ¬ (f :: rest).length % max_frames = 0 := by
          simp only [List.length_cons, max_frames] at *
          omega
        rw [hstep, if_pos hlt, hdrop,
          show runLoopErrAux n [] = ["ERROR: Cannot read frame"] from by
            cases n <;> rfl,
          if_neg hmod]
        rfl
      · have hdrop : ((f :: rest).drop max_frames).length ≤ n := by
          simp only [List.length_drop, List.length_cons, max_frames] at *
          omega
        have hmodeq : ((f :: rest).drop max_frames).length % max_frames =
            (f :: rest).length % max_frames := by
          simp only [List.length_drop, List.length_cons, max_frames] at *
          omega
        rw [hstep, if_neg hlt, List.nil_append, ih _ hdrop, hmodeq]

/-- C8: if the camera cannot be opened, nothing is printed to standard
output (no `READY`, no velocity line) and only the error channel carries
a message; otherwise the trace is exactly one `READY` first, followed
only by velocity lines — one per analyzed window — each carrying the
4-decimal-rounded value of the window's velocity (a finite printed value
is always an integer multiple of `1/10000`).  The error channel of a
successful run carries one `ERROR: Cannot read frame` line per failed
read: one when the frame count is an exact multiple of `max_frames`,
two when a partial window trails. -/
theorem c8_protocol (kp kt : Kern) (frames : List SFrame) :
    mainStdout kp kt false frames = [] ∧
    mainStderr false frames = ["ERROR: Cannot open camera"] ∧
    mainStderr true frames =
      List.replicate (if frames.length % max_frames = 0 then 1 else 2)
        "ERROR: Cannot read frame" ∧
    (mainStdout kp kt true frames).head? = some .ready ∧
    countReady (mainStdout kp kt true frames) = 1 ∧
    (∀ e ∈ (mainStdout kp kt true frames).tail, ∃ u, e = .vel (round4 u)) ∧
    countVel (mainStdout kp kt true frames) =
      (frames.length + (max_frames - 1)) / max_frames ∧
    (∀ v, Ev.vel v ∈ mainStdout kp kt true frames →
      ∀ q : ℚ, v = .fin q → ∃ z : ℤ, q = (z : ℚ) / 10000) := by
  have hall : ∀ e ∈ runLoop kp kt init_spatial_res frames,
      ∃ u, e = .vel (round4 u) :=
    fun e he => runLoopAux_all_vel kp kt frames.length init_spatial_res frames e he
  refine ⟨rfl, rfl, runLoopErrAux_replicate frames.length frames le_rfl, rfl,
    ?_, ?_, ?_, ?_⟩
  · show countReady (Ev.ready :: runLoop kp kt init_spatial_res frames) = 1
    rw [countReady_cons_ready, countReady_eq_zero_of_all_vel hall]
  · exact fun e he => hall e he
  · show countVel (Ev.ready :: runLoop kp kt init_spatial_res frames) = _
    rw [countVel_cons_ready, countVel_runLoop]
  · intro v hv q hq
    subst hq
    have hv' : Ev.vel (.fin q) ∈ runLoop kp kt init_spatial_res frames := by
      rcases List.mem_cons.mp hv with h | h
      · exact absurd h (by simp)
      · exact h
    obtain ⟨u, hu⟩ := hall _ hv'
    cases u with
    | fin a =>
      refine ⟨round (a * 10000), ?_⟩
      have h : Fl.fin q = round4 (.fin a) := by injection hu
      simp only [round4] at h
      injection h
    | inf => simp [round4] at hu
    | ninf => simp [round4] at hu
    | nan => simp [round4] at hu

/-- Witness for C8 on a concrete one-frame environment (whose trailing
partial window makes the loop fail two reads: one mid-window, one on the
final empty window). -/
theorem c8_protocol_witness :
    (mainStdout kDelta kDelta true [flatFrame]).head? = some .ready ∧
    countVel (mainStdout kDelta kDelta true [flatFrame]) =
      (([flatFrame] : List SFrame).length + (max_frames - 1)) / max_frames ∧
    mainStderr true [flatFrame] =
      List.replicate 2 "ERROR: Cannot read frame" :=
  ⟨(c8_protocol kDelta kDelta [flatFrame]).2.2.2.1,
    (c8_protocol kDelta kDelta [flatFrame]).2.2.2.2.2.2.1,
    by
      rw [(c8_protocol kDelta kDelta [flatFrame]).2.2.1]
      rfl⟩

set_option maxRecDepth 10000 in
/-- C10: `estimate_resolution_from_yolo` checks only the presence of a
target-class box, not the validity of its width: on a frame whose first
target-class box has width `x2 - x1 = 0`, both divisions are performed
with a zero divisor, numpy-style, yielding `+inf` for the distance and
the spatial resolution; the non-finite resolution is stored as
`current_spatial_res` by the calibration step and then scales the next
window's velocity, so the emitted value is non-finite (`nan` here, since
the flat frame's pixel velocity is `0` and `0 * inf = nan`). -/
theorem c10_zero_width_detection_nonfinite :
    zeroBox.cls = target_class ∧
    zeroBox.x2 - zeroBox.x1 = 0 ∧
    estimate_resolution_from_yolo zeroBoxFrame target_class target_width
      F_factor = some (.inf, .inf) ∧
    Fl.inf.isFinite = false ∧
    runCalib init_spatial_res 0 zeroBoxFrame = .inf ∧
    mainStdout kDelta kDelta true [zeroBoxFrame] = [.ready, .vel .nan] :=
  ⟨rfl, by decide, by decide, rfl, by decide, by decide⟩

end River
